import Mathlib

/-!
# Verification of the InvoiceAutomation app (src/app.py)

Shallow embedding of the Flask invoice application:

* `get_next_invoice_number` — the file-backed sequence allocator
  (invoice_counter.json).
* `generate_invoice` — the finalize path: allocates a number, computes the
  dates and the per-line arithmetic, and produces the invoice record
  (the PDF layout itself is presentation and is not modelled).
* `calculate` — the /calculate preview endpoint.
* `download` — the /download endpoint (empty-list guard, then
  `generate_invoice`).

Python floats are modelled as exact rationals (`ℚ`): the numeric claims are
algebraic identities that the spec states at full precision, before display
rounding.  Fallible Python code (exceptions) is modelled with
`Except String`.  The persisted counter file is modelled by the `Store`
type below.
-/

namespace InvoiceApp

/-- A JSON scalar as it can appear in an item field of the request body:
either a number or a string.  (item.get(key, 0) defaults to the number 0
when the key is missing, which `Item` models with `Option`.) -/
inductive JVal where
  | num (q : ℚ)
  | str (s : String)
deriving Repr, DecidableEq

/-- One raw line item of the request body.  Missing keys are `none`;
Python item.get(key, default) is modelled by `Option.getD`. -/
structure Item where
  description : Option String := none
  qty : Option JVal := none
  price : Option JVal := none
  tax : Option JVal := none
deriving Repr, DecidableEq

/-- Fuel-driven digit renderer (structural recursion on the fuel, so that
concrete instances evaluate by `rfl`).  With enough fuel it emits the
decimal digits of `n`, most significant first, onto `acc`. -/
def digitsLoop : Nat → Nat → List Char → List Char
  | 0, _, acc => acc
  | fuel + 1, n, acc =>
    if n < 10 then Nat.digitChar n :: acc
    else digitsLoop fuel (n / 10) (Nat.digitChar (n % 10) :: acc)

/-- Digit characters of `n` in base 10, most significant first
(the decimal rendering used by Python string formatting). -/
def natDigits (n : Nat) : List Char := digitsLoop (n + 1) n []

/-- Read a digit string back as a natural number (decimal). -/
def charsToNat (cs : List Char) : Nat :=
  cs.foldl (fun a c => 10 * a + (c.toNat - 48)) 0

/-- Left-pad a digit string with zeros to width `w` (Python 0-padded
fixed-width formatting such as %03d / %02d). -/
def padZero (w : Nat) (ds : List Char) : List Char :=
  List.replicate (w - ds.length) '0' ++ ds

/-- Python format spec 03d applied to an integer: minimum width 3, padded
with zeros, the sign counting toward the width. -/
def pyFmt03d (n : Int) : List Char :=
  if n < 0 then '-' :: padZero 2 (natDigits n.natAbs)
  else padZero 3 (natDigits n.natAbs)

/-- Two-digit zero-padded rendering of a natural number (format spec 02d,
as produced by the strftime codes %m and %d). -/
def pad2 (n : Nat) : List Char := padZero 2 (natDigits n)

/-- Value of a digit-or-sign decimal string as a rational, used to model
Python float(...) applied to a string.  Accepts an optional sign, an
integer part and an optional fractional part (a simplified model of
CPython float parsing: no exponents, infinities, or surrounding
whitespace — none of which the claims exercise). -/
def parseDecimal (s : String) : Option ℚ :=
  let core (cs : List Char) : Option ℚ :=
    let intPart := cs.takeWhile (· ≠ '.')
    match cs.dropWhile (· ≠ '.') with
    | [] =>
      if intPart ≠ [] && intPart.all Char.isDigit then
        some (charsToNat intPart)
      else none
    | '.' :: frac =>
      if (intPart ≠ [] || frac ≠ []) && intPart.all Char.isDigit
          && frac.all Char.isDigit then
        some ((charsToNat intPart : ℚ)
          + (charsToNat frac : ℚ) / (10 : ℚ) ^ frac.length)
      else none
    | _ => none
  match s.data with
  | '-' :: rest => (core rest).map (fun q => -q)
  | '+' :: rest => core rest
  | cs => core cs

/-- Python float(v) on a JSON value: numbers pass through, strings are
parsed, and a non-numeric string raises ValueError (modelled as
`Except.error` carrying the CPython message text, which names the
offending value, not the field it came from). -/
def pyFloat : JVal → Except String ℚ
  | .num q => .ok q
  | .str s =>
    match parseDecimal s with
    | some q => .ok q
    | none => .error ("could not convert string to float: " ++ s)

/-- The persisted counter file invoice_counter.json.

* `absent` — the file does not exist (os.path.exists is false).
* `corrupt` — the file exists but reading or JSON-parsing it raises
  (IOError / json.JSONDecodeError), as does a JSON value on which the
  dictionary lookup itself raises (a non-object such as a bare array).
* `val d` — the file holds a parseable JSON object; `d` is the integer
  value of its last_invoice key (`none` when the key is missing, in which
  case the Python lookup data.get(last_invoice, 73) falls back to 73).
  Integers are the only values the program itself ever writes. -/
inductive Store where
  | absent
  | corrupt
  | val (d : Option Int)
deriving Repr, DecidableEq

/-- `get_next_invoice_number` (src/app.py lines 17–30).  On success it
returns the allocated number together with the store state written by
json.dump (an object whose last_invoice field is the returned number);
a corrupt store makes json.load raise, which propagates to the caller
(no number is returned and nothing is written). -/
def get_next_invoice_number : Store → Except String (Int × Store)
  | .absent => .ok (74, .val (some 74))
  | .corrupt => .error "invoice_counter.json: JSONDecodeError"
  | .val d =>
    let invoice_number := d.getD 73 + 1
    .ok (invoice_number, .val (some invoice_number))

/-- The values returned by `n` consecutive allocator calls starting from
store state `s` (each call runs on the state the previous call wrote;
a failing call ends the trace). -/
def allocTrace : Nat → Store → List Int
  | 0, _ => []
  | n + 1, s =>
    match get_next_invoice_number s with
    | .error _ => []
    | .ok (v, s') => v :: allocTrace n s'

/-- One computed line of the items loop shared by `generate_invoice`
(src/app.py lines 114–133) and `calculate` (lines 196–214): the parsed
numeric fields and the three derived amounts.  `taxPercent` is the float
value of the tax field; `taxRaw` is the raw JSON value echoed back by the
responses (default the string 0). -/
structure ComputedLine where
  description : String
  qty : ℚ
  price : ℚ
  taxPercent : ℚ
  taxRaw : JVal
  line_subtotal : ℚ
  line_tax : ℚ
  line_total : ℚ
deriving Repr, DecidableEq

/-- The body of one iteration of the items loop: parse the three numeric
fields with float(...) in source order (qty, price, tax — the first
failure raises), then
line_subtotal = qty * price, line_tax = line_subtotal * (tax / 100),
line_total = line_subtotal + line_tax. -/
def lineOf (item : Item) : Except String ComputedLine :=
  match pyFloat (item.qty.getD (.num 0)) with
  | .error e => .error e
  | .ok qty =>
    match pyFloat (item.price.getD (.num 0)) with
    | .error e => .error e
    | .ok price =>
      match pyFloat (item.tax.getD (.num 0)) with
      | .error e => .error e
      | .ok taxPercent =>
        let tax_rate := taxPercent / 100
        let line_subtotal := qty * price
        let line_tax := line_subtotal * tax_rate
        .ok { description := item.description.getD ""
              qty := qty
              price := price
              taxPercent := taxPercent
              taxRaw := item.tax.getD (.str "0")
              line_subtotal := line_subtotal
              line_tax := line_tax
              line_total := line_subtotal + line_tax }

/-- The items loop, in input order; the first exception aborts the whole
request (and, in both endpoints, no partial response is produced). -/
def processItems : List Item → Except String (List ComputedLine)
  | [] => .ok []
  | item :: rest =>
    match lineOf item with
    | .error e => .error e
    | .ok l =>
      match processItems rest with
      | .error e => .error e
      | .ok ls => .ok (l :: ls)

/-- The running sum subtotal += line_subtotal, started at 0. -/
def sumSubtotal (ls : List ComputedLine) : ℚ :=
  ls.foldl (fun acc l => acc + l.line_subtotal) 0

/-- The running sum total_tax += line_tax, started at 0. -/
def sumTax (ls : List ComputedLine) : ℚ :=
  ls.foldl (fun acc l => acc + l.line_tax) 0

/-- A calendar date, as carried by a Python datetime value (the
time-of-day part plays no role in this program). -/
structure Date where
  year : Nat
  month : Nat
  day : Nat
deriving Repr, DecidableEq

/-- Gregorian leap-year rule (as implemented by the Python datetime
library that timedelta arithmetic relies on). -/
def isLeap (y : Nat) : Bool :=
  (y % 4 == 0 && y % 100 != 0) || y % 400 == 0

/-- Number of days of month `m` of year `y`. -/
def daysInMonth (y m : Nat) : Nat :=
  if m = 2 then (if isLeap y then 29 else 28)
  else if m = 4 ∨ m = 6 ∨ m = 9 ∨ m = 11 then 30
  else 31

/-- Successor day in the proleptic Gregorian calendar. -/
def nextDay (d : Date) : Date :=
  if d.day < daysInMonth d.year d.month then ⟨d.year, d.month, d.day + 1⟩
  else if d.month < 12 then ⟨d.year, d.month + 1, 1⟩
  else ⟨d.year + 1, 1, 1⟩

/-- Python date + timedelta(days = n): advance `n` calendar days. -/
def addDays (d : Date) : Nat → Date
  | 0 => d
  | n + 1 => addDays (nextDay d) n

/-- A date a Python datetime can actually hold (what datetime.now()
returns): month between 1 and 12 and day within the month. -/
def Date.Valid (d : Date) : Prop :=
  1 ≤ d.month ∧ d.month ≤ 12 ∧ 1 ≤ d.day ∧ d.day ≤ daysInMonth d.year d.month

/-- The f-string INV-{today.year}-{invoice_number:03d} of
src/app.py line 47. -/
def invoiceNoStr (year : Nat) (counter : Int) : String :=
  ⟨'I' :: 'N' :: 'V' :: '-' :: (natDigits year ++ '-' :: pyFmt03d counter)⟩

/-- strftime with format %Y-%m-%d: the year in decimal, then the month
and the day each zero-padded to two digits. -/
def isoDate (d : Date) : String :=
  ⟨natDigits d.year ++ '-' :: (pad2 d.month ++ '-' :: pad2 d.day)⟩

/-- Python format spec .2f on the model rationals: the value rounded to
two fraction digits and rendered with exactly two fraction digits.
(CPython rounds the underlying binary float to nearest even; on the
rational model the generic `round` plays that role — the claims only
ever evaluate this at exactly-representable points.) -/
def fmt2 (q : ℚ) : String :=
  let c : Int := round (q * 100)
  let a := c.natAbs
  let body := natDigits (a / 100) ++ '.' :: pad2 (a % 100)
  ⟨if c < 0 then '-' :: body else body⟩

/-- The invoice record assembled by `generate_invoice` (src/app.py
lines 42–178), PDF layout aside: identifier, the two formatted dates,
the computed lines and the totals (kept at full precision; the PDF
renders them through format spec .2f). -/
structure Invoice where
  invoice_no : String
  invoice_date : String
  due_date_str : String
  lines : List ComputedLine
  subtotal : ℚ
  total_tax : ℚ
  grand_total : ℚ
deriving Repr, DecidableEq

/-- `generate_invoice` (src/app.py lines 32–178).  The counter is
allocated first (line 43) — before the items loop runs — so an item
exception propagates with the store already advanced.  `today` stands
for datetime.now().  The customer argument only feeds the rendered PDF
text, never the computation, and is omitted. -/
def generate_invoice (items_data : List Item) (today : Date) (s : Store) :
    Except String Invoice × Store :=
  match get_next_invoice_number s with
  | .error e => (.error e, s)
  | .ok (invoice_number, s') =>
    let invoice_no := invoiceNoStr today.year invoice_number
    let due_date := addDays today 15
    match processItems items_data with
    | .error e => (.error e, s')
    | .ok ls =>
      let subtotal := sumSubtotal ls
      let total_tax := sumTax ls
      (.ok { invoice_no := invoice_no
             invoice_date := isoDate today
             due_date_str := isoDate due_date
             lines := ls
             subtotal := subtotal
             total_tax := total_tax
             grand_total := subtotal + total_tax }, s')

/-- One element of the items array of the /calculate JSON response. -/
structure CalcItem where
  description : String
  qty : ℚ
  price : ℚ
  tax : JVal
  line_total : ℚ
deriving Repr, DecidableEq

/-- The response dictionary built for one computed line (src/app.py
lines 208–214): the tax field echoes the raw request value, with the
string 0 as default. -/
def calcItemOf (l : ComputedLine) : CalcItem :=
  { description := l.description
    qty := l.qty
    price := l.price
    tax := l.taxRaw
    line_total := l.line_total }

/-- The successful /calculate JSON response.  The fields subtotal, tax
and total are the display strings of the response; the fields subtotalQ,
taxQ and totalQ carry the full-precision values of the local variables
they are formatted from (subtotal, total_tax and grand_total). -/
structure CalcOk where
  success : Bool
  items : List CalcItem
  subtotal : String
  tax : String
  total : String
  subtotalQ : ℚ
  taxQ : ℚ
  totalQ : ℚ
deriving Repr, DecidableEq

/-- The /calculate endpoint (src/app.py lines 185–226): run the items
loop, sum, and answer success plus the formatted totals; any exception
is answered as a 400 response carrying its message (`Except.error`).
The handler never touches the counter store, so the store component is
returned unchanged. -/
def calculate (items : List Item) (s : Store) :
    Except String CalcOk × Store :=
  (match processItems items with
    | .error e => .error e
    | .ok ls =>
      let subtotal := sumSubtotal ls
      let total_tax := sumTax ls
      let grand_total := subtotal + total_tax
      .ok { success := true
            items := ls.map calcItemOf
            subtotal := fmt2 subtotal
            tax := fmt2 total_tax
            total := fmt2 grand_total
            subtotalQ := subtotal
            taxQ := total_tax
            totalQ := grand_total },
    s)

/-- The successful /download response: the PDF attachment name
{invoice_no}.pdf and the invoice it renders. -/
structure DownloadOk where
  filename : String
  invoice : Invoice
deriving Repr, DecidableEq

/-- The /download endpoint (src/app.py lines 228–247): reject an empty
items list with the message No items provided (before any allocation),
otherwise run `generate_invoice`; any exception is answered as a 400
response carrying its message, with whatever the counter file holds by
then. -/
def download (items : List Item) (today : Date) (s : Store) :
    Except String DownloadOk × Store :=
  if items.isEmpty then (.error "No items provided", s)
  else
    match generate_invoice items today s with
    | (.error e, s') => (.error e, s')
    | (.ok inv, s') =>
      (.ok { filename := inv.invoice_no ++ ".pdf", invoice := inv }, s')

/-- Modelled from the spec: the round-trip reading of an
InvoiceIdentifier (the repository has no parser of its own — the spec
says the identifier parses back to the (year, counter) pair used to
construct it).  After the literal INV- head, the year part runs to the
next dash and the counter part is the remainder; both must be nonempty
digit strings and are read back as decimal numbers. -/
def parseIdChars : List Char → Option (Nat × Nat)
  | 'I' :: 'N' :: 'V' :: '-' :: rest =>
    let ys := rest.takeWhile (· ≠ '-')
    match rest.dropWhile (· ≠ '-') with
    | '-' :: cs =>
      if !ys.isEmpty && !cs.isEmpty && ys.all Char.isDigit
          && cs.all Char.isDigit then
        some (charsToNat ys, charsToNat cs)
      else none
    | _ => none
  | _ => none

/-- Modelled from the spec: parse an InvoiceIdentifier string. -/
def parseInvoiceNo (s : String) : Option (Nat × Nat) :=
  parseIdChars s.data

/-- A string of the ISO shape YYYY-MM-DD: ten characters, dashes at
positions 5 and 8, decimal digits everywhere else. -/
def isISODateString (s : String) : Bool :=
  match s.data with
  | [y1, y2, y3, y4, h1, m1, m2, h2, d1, d2] =>
    (([y1, y2, y3, y4, m1, m2, d1, d2]).all Char.isDigit)
      && h1 == '-' && h2 == '-'
  | _ => false

/-- Whether an `Except` value is a success. -/
def isOkE {α : Type} : Except String α → Bool
  | .ok _ => true
  | .error _ => false

/-- All three numeric fields of the item convert with float(...) without
raising (each is a number, a parseable numeric string, or missing —
missing defaults to the number 0). -/
def floatFieldsOk (item : Item) : Bool :=
  isOkE (pyFloat (item.qty.getD (.num 0)))
    && isOkE (pyFloat (item.price.getD (.num 0)))
    && isOkE (pyFloat (item.tax.getD (.num 0)))

/-- A concrete request item whose qty field is the non-numeric string
abc (the example used by the spec). -/
def badItem : Item :=
  { qty := some (.str "abc"), price := some (.num 10), tax := some (.num 0) }

/-- The worked example of the spec: qty 2, price 10.00, tax 10. -/
def widgetItem : Item :=
  { description := some "Widget", qty := some (.num 2),
    price := some (.num 10), tax := some (.num 10) }

/-- The computed line of `widgetItem`: subtotal 20.00, tax 2.00,
total 22.00. -/
def widgetLine : ComputedLine :=
  { description := "Widget", qty := 2, price := 10, taxPercent := 10,
    taxRaw := JVal.num 10, line_subtotal := 20, line_tax := 2,
    line_total := 22 }

/-- An item with a negative quantity and otherwise numeric fields. -/
def negItem : Item :=
  { qty := some (.num (-2)), price := some (.num 10), tax := some (.num 25) }

end InvoiceApp

namespace InvoiceApp

/-! ## Helper lemmas on decimal digit strings -/

theorem digitsLoop_acc (fuel : Nat) : ∀ (n : Nat) (acc : List Char),
    digitsLoop fuel n acc = digitsLoop fuel n [] ++ acc := by
  induction fuel with
  | zero => intro n acc; simp [digitsLoop]
  | succ f ih =>
    intro n acc
    simp only [digitsLoop]
    by_cases h : n < 10
    · simp [h]
    · simp only [if_neg h]
      rw [ih (n / 10) (Nat.digitChar (n % 10) :: acc),
        ih (n / 10) [Nat.digitChar (n % 10)]]
      simp

theorem digitsLoop_extra (n : Nat) : ∀ (f₁ f₂ : Nat), n < f₁ → n < f₂ →
    digitsLoop f₁ n [] = digitsLoop f₂ n [] := by
  induction n using Nat.strong_induction_on with
  | _ n ih =>
    intro f₁ f₂ h₁ h₂
    match f₁, f₂ with
    | g₁ + 1, g₂ + 1 =>
      simp only [digitsLoop]
      by_cases h : n < 10
      · simp [h]
      · simp only [if_neg h]
        have hlt : n / 10 < n := Nat.div_lt_self (by omega) (by omega)
        rw [digitsLoop_acc g₁, digitsLoop_acc g₂,
          ih (n / 10) hlt g₁ g₂ (by omega) (by omega)]

theorem natDigits_lt10 (n : Nat) (h : n < 10) :
    natDigits n = [Nat.digitChar n] := by
  simp [natDigits, digitsLoop, h]

theorem natDigits_ge10 (n : Nat) (h : 10 ≤ n) :
    natDigits n = natDigits (n / 10) ++ [Nat.digitChar (n % 10)] := by
  have hlt : n / 10 < n := Nat.div_lt_self (by omega) (by omega)
  show digitsLoop (n + 1) n [] = _
  simp only [digitsLoop, if_neg (by omega : ¬ n < 10)]
  rw [digitsLoop_acc n (n / 10) [Nat.digitChar (n % 10)],
    digitsLoop_extra (n / 10) n (n / 10 + 1) (by omega) (by omega)]
  rfl

theorem digitChar_toNat (d : Nat) (h : d < 10) :
    (Nat.digitChar d).toNat = 48 + d := by
  interval_cases d <;> decide

theorem digitChar_isDigit (d : Nat) (h : d < 10) :
    (Nat.digitChar d).isDigit = true := by
  interval_cases d <;> decide

theorem natDigits_all_isDigit (n : Nat) :
    ∀ c ∈ natDigits n, c.isDigit = true := by
  induction n using Nat.strong_induction_on with
  | _ n ih =>
    by_cases h : n < 10
    · rw [natDigits_lt10 n h]
      intro c hc
      rw [List.mem_singleton] at hc
      subst hc
      exact digitChar_isDigit n h
    · rw [natDigits_ge10 n (by omega)]
      intro c hc
      rcases List.mem_append.mp hc with h1 | h2
      · exact ih (n / 10) (Nat.div_lt_self (by omega) (by omega)) c h1
      · rw [List.mem_singleton] at h2
        subst h2
        exact digitChar_isDigit _ (Nat.mod_lt n (by omega))

theorem natDigits_ne_nil (n : Nat) : natDigits n ≠ [] := by
  by_cases h : n < 10
  · rw [natDigits_lt10 n h]; simp
  · rw [natDigits_ge10 n (by omega)]; simp

theorem charsToNat_snoc (xs : List Char) (c : Char) :
    charsToNat (xs ++ [c]) = 10 * charsToNat xs + (c.toNat - 48) := by
  simp [charsToNat, List.foldl_append]

theorem charsToNat_natDigits (n : Nat) : charsToNat (natDigits n) = n := by
  induction n using Nat.strong_induction_on with
  | _ n ih =>
    by_cases h : n < 10
    · rw [natDigits_lt10 n h]
      simp [charsToNat, digitChar_toNat n h]
    · rw [natDigits_ge10 n (by omega), charsToNat_snoc,
        ih (n / 10) (Nat.div_lt_self (by omega) (by omega)),
        digitChar_toNat _ (Nat.mod_lt n (by omega))]
      omega

theorem charsToNat_zeros (k : Nat) (ds : List Char) :
    charsToNat (List.replicate k '0' ++ ds) = charsToNat ds := by
  induction k with
  | zero => simp
  | succ j ih =>
    have h0 : (10 * 0 + ('0'.toNat - 48)) = 0 := by decide
    simpa [charsToNat, List.foldl_cons, h0] using ih

theorem charsToNat_padZero (w : Nat) (ds : List Char) :
    charsToNat (padZero w ds) = charsToNat ds :=
  charsToNat_zeros _ ds

theorem padZero_mem (w : Nat) (ds : List Char) (c : Char)
    (h : c ∈ padZero w ds) : c = '0' ∨ c ∈ ds := by
  rcases List.mem_append.mp h with h1 | h2
  · exact Or.inl (List.eq_of_mem_replicate h1)
  · exact Or.inr h2

theorem padZero_ne_nil (w : Nat) (ds : List Char) (h : ds ≠ []) :
    padZero w ds ≠ [] := by
  simp [padZero, h]

theorem takeWhile_append_stop (p : Char → Bool) (l₂ : List Char) (x : Char)
    (hx : p x = false) : ∀ l₁ : List Char, (∀ a ∈ l₁, p a = true) →
    (l₁ ++ x :: l₂).takeWhile p = l₁ := by
  intro l₁
  induction l₁ with
  | nil => intro _; simp [List.takeWhile_cons, hx]
  | cons a t ih =>
    intro h
    simp only [List.cons_append, List.takeWhile_cons, h a (by simp)]
    rw [ih (fun b hb => h b (by simp [hb]))]
    simp

theorem dropWhile_append_stop (p : Char → Bool) (l₂ : List Char) (x : Char)
    (hx : p x = false) : ∀ l₁ : List Char, (∀ a ∈ l₁, p a = true) →
    (l₁ ++ x :: l₂).dropWhile p = x :: l₂ := by
  intro l₁
  induction l₁ with
  | nil => intro _; simp [List.dropWhile_cons, hx]
  | cons a t ih =>
    intro h
    simp only [List.cons_append, List.dropWhile_cons, h a (by simp)]
    exact ih (fun b hb => h b (by simp [hb]))

theorem isDigit_ne_dash (c : Char) (h : c.isDigit = true) : c ≠ '-' := by
  intro hc
  subst hc
  simp [Char.isDigit] at h

/-! ## Allocator traces -/

theorem allocTrace_val (n : Nat) (k : Int) :
    allocTrace n (.val (some k))
      = (List.range n).map (fun i : Nat => k + 1 + (i : Int)) := by
  induction n generalizing k with
  | zero => rfl
  | succ m ih =>
    rw [List.range_succ_eq_map]
    simp only [allocTrace, get_next_invoice_number, Option.getD, List.map_cons,
      List.map_map, ih]
    congr 1
    · push_cast; ring
    · apply List.map_congr_left
      intro i _
      simp only [Function.comp_apply]
      push_cast; ring

/-- **C1.**  The Sequence Allocator, started from a fresh store (no
persisted state), returns 74 on the first call, persists it, and each
later call returns one more than the last persisted value: `N` sequential
calls return exactly the sequence 74, 75, ..., 73 + N. -/
theorem C1_alloc_sequence_from_fresh (N : Nat) :
    allocTrace N .absent
      = (List.range N).map (fun i : Nat => (74 : Int) + (i : Int)) := by
  cases N with
  | zero => rfl
  | succ m =>
    rw [List.range_succ_eq_map]
    simp only [allocTrace, get_next_invoice_number, List.map_cons, List.map_map,
      allocTrace_val]
    simp only [List.cons.injEq]
    refine ⟨by norm_num, List.map_congr_left ?_⟩
    intro i _
    simp only [Function.comp_apply]
    push_cast; ring

/-! ## C7: identifier round-trip -/

/-- **C7.**  The invoice identifier produced at generation is
INV-(year)-(counter zero-padded to 3 digits), and parsing it back yields
exactly the (year, counter) pair it was built from, for every year and
every (nonnegative, hence every allocator-produced) counter value. -/
theorem C7_invoice_id_roundtrip (y c : Nat) :
    parseInvoiceNo (invoiceNoStr y (c : Int)) = some (y, c) := by
  have hnn : ¬ ((c : Int) < 0) := by exact_mod_cast Int.not_lt.mpr (Int.natCast_nonneg c)
  have hfmt : pyFmt03d (c : Int) = padZero 3 (natDigits c) := by
    simp [pyFmt03d, hnn, Int.natAbs_ofNat]
  have hdata : (invoiceNoStr y (c : Int)).data
      = 'I' :: 'N' :: 'V' :: '-' :: (natDigits y ++ '-' :: pyFmt03d (c : Int)) := rfl
  have hx : (decide (('-' : Char) ≠ '-')) = false := by decide
  have hally : ∀ a ∈ natDigits y, (decide (a ≠ '-')) = true := by
    intro a ha
    simpa using isDigit_ne_dash a (natDigits_all_isDigit y a ha)
  rw [parseInvoiceNo, hdata, hfmt]
  rw [parseIdChars]
  rw [takeWhile_append_stop _ _ '-' hx (natDigits y) hally,
    dropWhile_append_stop _ _ '-' hx (natDigits y) hally]
  have hpadDigit : ∀ a ∈ padZero 3 (natDigits c), a.isDigit = true := by
    intro a ha
    rcases padZero_mem 3 (natDigits c) a ha with h0 | hd
    · subst h0; decide
    · exact natDigits_all_isDigit c a hd
  have hys : (natDigits y).isEmpty = false := by
    cases hnd : natDigits y with
    | nil => exact absurd hnd (natDigits_ne_nil y)
    | cons a t => rfl
  have hcs : (padZero 3 (natDigits c)).isEmpty = false := by
    cases hnd : padZero 3 (natDigits c) with
    | nil => exact absurd hnd (padZero_ne_nil 3 (natDigits c) (natDigits_ne_nil c))
    | cons a t => rfl
  simp only [hys, hcs, List.all_eq_true, Bool.not_false, Bool.true_and]
  rw [if_pos]
  · rw [charsToNat_natDigits, charsToNat_padZero, charsToNat_natDigits]
  · simp only [List.all_eq_true, Bool.and_eq_true]
    exact ⟨natDigits_all_isDigit y, hpadDigit⟩

/-! ## C8: strict monotonicity of the counter -/

theorem pairwise_map_range (n : Nat) (k : Int) :
    (((List.range n).map (fun i : Nat => k + 1 + (i : Int)))).Pairwise (· < ·) := by
  rw [List.pairwise_map]
  exact (List.pairwise_lt_range n).imp (by intro a b hab; omega)

theorem allocTrace_pairwise (n : Nat) (s : Store) :
    (allocTrace n s).Pairwise (· < ·) := by
  cases s with
  | corrupt =>
    cases n with
    | zero => simp [allocTrace]
    | succ m => simp [allocTrace, get_next_invoice_number]
  | val d =>
    cases d with
    | some k =>
      rw [allocTrace_val]
      exact pairwise_map_range n k
    | none =>
      cases n with
      | zero => simp [allocTrace]
      | succ m =>
        simp only [allocTrace, get_next_invoice_number, Option.getD,
          allocTrace_val]
        constructor
        · intro b hb
          rcases List.mem_map.mp hb with ⟨i, _, rfl⟩
          push_cast
          omega
        · exact pairwise_map_range m 74
  | absent =>
    cases n with
    | zero => simp [allocTrace]
    | succ m =>
      simp only [allocTrace, get_next_invoice_number, allocTrace_val]
      constructor
      · intro b hb
        rcases List.mem_map.mp hb with ⟨i, _, rfl⟩
        push_cast
        omega
      · exact pairwise_map_range m 74

/-- **C8.**  Every successful allocation persists exactly the value it
returns (the store afterwards records the returned number), and along any
sequence of allocations from any store state the returned values are
pairwise strictly increasing — each value exceeds all earlier ones and no
number is ever issued twice. -/
theorem C8_counter_monotone_no_reuse (s : Store) (v : Int) (s' : Store)
    (h : get_next_invoice_number s = .ok (v, s')) (n : Nat) (t : Store) :
    s' = .val (some v) ∧ (allocTrace n t).Pairwise (· < ·) := by
  refine ⟨?_, allocTrace_pairwise n t⟩
  cases s with
  | absent =>
    simp only [get_next_invoice_number, Except.ok.injEq, Prod.mk.injEq] at h
    rw [← h.1, ← h.2]
  | corrupt => simp [get_next_invoice_number] at h
  | val d =>
    simp only [get_next_invoice_number, Except.ok.injEq, Prod.mk.injEq] at h
    rw [← h.1, ← h.2]

/-- Witness for C8 at a concrete allocation: from a store whose last
persisted value is 74, the call returns 75 and persists 75, and a
five-call trace from a fresh store is strictly increasing. -/
theorem C8_witness :
    Store.val (some 75) = Store.val (some 75)
      ∧ (allocTrace 5 Store.absent).Pairwise (· < ·) :=
  C8_counter_monotone_no_reuse (Store.val (some 74)) 75 (.val (some 75)) rfl
    5 .absent

/-! ## The items loop -/

theorem lineOf_error_of_badField (item : Item)
    (h : floatFieldsOk item = false) : ∃ e, lineOf item = .error e := by
  unfold floatFieldsOk at h
  cases hq : pyFloat (item.qty.getD (.num 0)) with
  | error e => exact ⟨e, by simp [lineOf, hq]⟩
  | ok q =>
    cases hp : pyFloat (item.price.getD (.num 0)) with
    | error e => exact ⟨e, by simp [lineOf, hq, hp]⟩
    | ok p =>
      cases ht : pyFloat (item.tax.getD (.num 0)) with
      | error e => exact ⟨e, by simp [lineOf, hq, hp, ht]⟩
      | ok t => simp [hq, hp, ht, isOkE] at h

theorem lineOf_ok_of_fieldsOk (item : Item)
    (h : floatFieldsOk item = true) : ∃ l, lineOf item = .ok l := by
  unfold floatFieldsOk at h
  cases hq : pyFloat (item.qty.getD (.num 0)) with
  | error e => simp [hq, isOkE] at h
  | ok q =>
    cases hp : pyFloat (item.price.getD (.num 0)) with
    | error e => simp [hq, hp, isOkE] at h
    | ok p =>
      cases ht : pyFloat (item.tax.getD (.num 0)) with
      | error e => simp [hq, hp, ht, isOkE] at h
      | ok t =>
        exact ⟨{ description := item.description.getD "", qty := q, price := p,
                 taxPercent := t, taxRaw := item.tax.getD (.str "0"),
                 line_subtotal := q * p, line_tax := q * p * (t / 100),
                 line_total := q * p + q * p * (t / 100) },
               by unfold lineOf; rw [hq, hp, ht]⟩

theorem lineOf_formulas (item : Item) (l : ComputedLine)
    (h : lineOf item = .ok l) :
    l.line_subtotal = l.qty * l.price
      ∧ l.line_tax = l.line_subtotal * (l.taxPercent / 100)
      ∧ l.line_total = l.line_subtotal + l.line_tax := by
  unfold lineOf at h
  cases hq : pyFloat (item.qty.getD (.num 0)) with
  | error e => rw [hq] at h; simp at h
  | ok q =>
    rw [hq] at h
    cases hp : pyFloat (item.price.getD (.num 0)) with
    | error e => rw [hp] at h; simp at h
    | ok p =>
      rw [hp] at h
      cases ht : pyFloat (item.tax.getD (.num 0)) with
      | error e => rw [ht] at h; simp at h
      | ok t =>
        rw [ht] at h
        injection h with h
        subst h
        exact ⟨rfl, rfl, rfl⟩

theorem processItems_error_of_bad (items : List Item)
    (h : ∃ it ∈ items, floatFieldsOk it = false) :
    ∃ e, processItems items = .error e := by
  induction items with
  | nil => simp at h
  | cons a t ih =>
    rcases h with ⟨it, hmem, hbad⟩
    rcases List.mem_cons.mp hmem with rfl | hmem'
    · obtain ⟨e, he⟩ := lineOf_error_of_badField it hbad
      exact ⟨e, by simp [processItems, he]⟩
    · cases hla : lineOf a with
      | error ea => exact ⟨ea, by simp [processItems, hla]⟩
      | ok l =>
        obtain ⟨e, he⟩ := ih ⟨it, hmem', hbad⟩
        exact ⟨e, by simp [processItems, hla, he]⟩

theorem processItems_ok_of_all (items : List Item)
    (h : ∀ it ∈ items, floatFieldsOk it = true) :
    ∃ ls, processItems items = .ok ls := by
  induction items with
  | nil => exact ⟨[], rfl⟩
  | cons a t ih =>
    obtain ⟨l, hl⟩ := lineOf_ok_of_fieldsOk a (h a (by simp))
    obtain ⟨ls, hls⟩ := ih (fun it hit => h it (by simp [hit]))
    exact ⟨l :: ls, by simp [processItems, hl, hls]⟩

theorem processItems_mem_provenance (items : List Item)
    (ls : List ComputedLine) (h : processItems items = .ok ls) :
    ∀ l ∈ ls, ∃ it ∈ items, lineOf it = .ok l := by
  induction items generalizing ls with
  | nil =>
    unfold processItems at h
    injection h with h
    subst h
    simp
  | cons a t ih =>
    unfold processItems at h
    cases hla : lineOf a with
    | error e => rw [hla] at h; simp at h
    | ok l =>
      rw [hla] at h
      cases hpt : processItems t with
      | error e => rw [hpt] at h; simp at h
      | ok ls' =>
        rw [hpt] at h
        injection h with h
        subst h
        intro x hx
        rcases List.mem_cons.mp hx with rfl | hx'
        · exact ⟨a, by simp, hla⟩
        · obtain ⟨it, hit, hline⟩ := ih ls' hpt x hx'
          exact ⟨it, by simp [hit], hline⟩

theorem processItems_index (items : List Item) (ls : List ComputedLine)
    (h : processItems items = .ok ls) :
    ls.length = items.length
      ∧ ∀ i (hi : i < items.length) (hl : i < ls.length),
          lineOf (items.get ⟨i, hi⟩) = .ok (ls.get ⟨i, hl⟩) := by
  induction items generalizing ls with
  | nil =>
    unfold processItems at h
    injection h with h
    subst h
    exact ⟨rfl, fun i hi => by simp at hi⟩
  | cons a t ih =>
    unfold processItems at h
    cases hla : lineOf a with
    | error e => rw [hla] at h; simp at h
    | ok l =>
      rw [hla] at h
      cases hpt : processItems t with
      | error e => rw [hpt] at h; simp at h
      | ok ls' =>
        rw [hpt] at h
        injection h with h
        subst h
        obtain ⟨hlen, hidx⟩ := ih ls' hpt
        refine ⟨by simp [hlen], ?_⟩
        intro i hi hl
        cases i with
        | zero => simpa using hla
        | succ j =>
          simpa using hidx j (by simpa using hi) (by simpa using hl)

theorem foldl_add_eq (f : ComputedLine → ℚ) (ls : List ComputedLine) :
    ∀ init : ℚ, ls.foldl (fun acc l => acc + f l) init
      = init + (ls.map f).sum := by
  induction ls with
  | nil => intro init; simp
  | cons a t ih => intro init; simp [ih]; ring

theorem sumSubtotal_eq (ls : List ComputedLine) :
    sumSubtotal ls = (ls.map ComputedLine.line_subtotal).sum := by
  simp [sumSubtotal, foldl_add_eq]

theorem sumTax_eq (ls : List ComputedLine) :
    sumTax ls = (ls.map ComputedLine.line_tax).sum := by
  simp [sumTax, foldl_add_eq]

/-! ## C3: per-line arithmetic and totals -/

/-- **C3.**  The items loop processes the list in input order with order
preserved (entry i of the output comes from entry i of the input); every
computed line satisfies line_subtotal = qty * price,
line_tax = line_subtotal * (tax / 100),
line_total = line_subtotal + line_tax; the running sums equal the exact
sums of the line subtotals and line taxes; and both endpoints answer
subtotal, tax, and grand_total = subtotal + tax computed from those
full-precision sums. -/
theorem C3_line_arithmetic_and_totals (items : List Item)
    (ls : List ComputedLine) (h : processItems items = .ok ls) :
    ls.length = items.length
      ∧ (∀ i (hi : i < items.length) (hl : i < ls.length),
          lineOf (items.get ⟨i, hi⟩) = .ok (ls.get ⟨i, hl⟩))
      ∧ (∀ l ∈ ls,
          l.line_subtotal = l.qty * l.price
            ∧ l.line_tax = l.line_subtotal * (l.taxPercent / 100)
            ∧ l.line_total = l.line_subtotal + l.line_tax)
      ∧ sumSubtotal ls = (ls.map ComputedLine.line_subtotal).sum
      ∧ sumTax ls = (ls.map ComputedLine.line_tax).sum
      ∧ (∀ s : Store, ∃ r : CalcOk, (calculate items s).1 = .ok r
            ∧ r.subtotalQ = sumSubtotal ls ∧ r.taxQ = sumTax ls
            ∧ r.totalQ = r.subtotalQ + r.taxQ ∧ r.items = ls.map calcItemOf)
      ∧ (∀ (today : Date) (s : Store) (inv : Invoice),
          (generate_invoice items today s).1 = .ok inv →
            inv.lines = ls ∧ inv.subtotal = sumSubtotal ls
              ∧ inv.total_tax = sumTax ls
              ∧ inv.grand_total = inv.subtotal + inv.total_tax) := by
  obtain ⟨hlen, hidx⟩ := processItems_index items ls h
  refine ⟨hlen, hidx, ?_, sumSubtotal_eq ls, sumTax_eq ls, ?_, ?_⟩
  · intro l hl
    obtain ⟨it, _, hline⟩ := processItems_mem_provenance items ls h l hl
    exact lineOf_formulas it l hline
  · intro s
    refine ⟨{ success := true, items := ls.map calcItemOf,
              subtotal := fmt2 (sumSubtotal ls), tax := fmt2 (sumTax ls),
              total := fmt2 (sumSubtotal ls + sumTax ls),
              subtotalQ := sumSubtotal ls, taxQ := sumTax ls,
              totalQ := sumSubtotal ls + sumTax ls }, ?_, rfl, rfl, rfl, rfl⟩
    simp [calculate, h]
  · intro today s inv hinv
    unfold generate_invoice at hinv
    cases hs : get_next_invoice_number s with
    | error e => rw [hs] at hinv; simp at hinv
    | ok p =>
      rw [hs] at hinv
      rw [h] at hinv
      injection hinv with hinv
      subst hinv
      exact ⟨rfl, rfl, rfl, rfl⟩

/-- Witness for C3 at the worked example of the spec: one line item
with qty 2, price 10.00 and tax 10 computes to `widgetLine`
(subtotal 20, tax 2, total 22). -/
theorem C3_witness : [widgetLine].length = [widgetItem].length :=
  (C3_line_arithmetic_and_totals [widgetItem] [widgetLine]
    (by simp [processItems, lineOf, pyFloat, widgetItem, widgetLine]
        norm_num)).1

/-! ## C2: non-numeric fields on the finalize path -/

/-- **C2 (counterexample).**  Finalizing a single item whose qty is the
non-numeric string abc, from a fresh store, fails — but with the raw
float-conversion message (which names the value, not the field), and the
counter has been allocated and persisted: the store is no longer absent
but records 74. -/
theorem C2_counterexample :
    download [badItem] ⟨2025, 10, 12⟩ .absent
      = (.error "could not convert string to float: abc", .val (some 74))
      ∧ Store.absent ≠ Store.val (some 74) := by
  exact ⟨rfl, by decide⟩

/-- **C2 (amended).**  On the finalize path, a request whose item list
contains a non-numeric quantity, price or tax field fails (the error is
the float-conversion message naming the offending value, not the field),
but the counter allocation has already happened when the loop raises:
the store after the failed request is the state the allocator wrote, not
the state the request started from. -/
theorem C2_bad_field_fails_but_counter_advances
    (items : List Item) (today : Date) (s : Store) (n : Int) (s' : Store)
    (halloc : get_next_invoice_number s = .ok (n, s'))
    (hbad : ∃ it ∈ items, floatFieldsOk it = false) :
    (∃ e, (download items today s).1 = .error e)
      ∧ (download items today s).2 = s' := by
  obtain ⟨e, he⟩ := processItems_error_of_bad items hbad
  have hne : items ≠ [] := by
    rcases hbad with ⟨it, hm, _⟩
    exact List.ne_nil_of_mem hm
  have hie : items.isEmpty = false := by
    cases items with
    | nil => exact absurd rfl hne
    | cons a t => rfl
  constructor
  · exact ⟨e, by simp [download, generate_invoice, hie, halloc, he]⟩
  · simp [download, generate_invoice, hie, halloc, he]

/-- Witness for C2 (amended): the concrete bad request of the
counterexample, started from a store recording 80. -/
theorem C2_witness :
    (∃ e, (download [badItem] ⟨2025, 10, 12⟩ (.val (some 80))).1 = .error e)
      ∧ (download [badItem] ⟨2025, 10, 12⟩ (.val (some 80))).2
        = .val (some 81) :=
  C2_bad_field_fails_but_counter_advances [badItem] ⟨2025, 10, 12⟩
    (.val (some 80)) 81 (.val (some 81)) rfl
    ⟨badItem, by simp, by decide⟩

/-! ## C4: the empty item list -/

theorem fmt2_zero : fmt2 0 = "0.00" := by
  have h : round ((0 : ℚ) * 100) = (0 : Int) := by norm_num
  simp only [fmt2, h]
  decide

/-- **C4.**  The empty item list succeeds on the preview endpoint with
subtotal 0.00, tax 0.00, total 0.00 and success true (and without
touching the store), while the finalize endpoint rejects it with the
error No items provided (and without touching the store). -/
theorem C4_empty_item_list (s : Store) (today : Date) :
    (calculate [] s).1
        = .ok { success := true, items := [], subtotal := "0.00",
                tax := "0.00", total := "0.00", subtotalQ := 0, taxQ := 0,
                totalQ := 0 }
      ∧ (calculate [] s).2 = s
      ∧ download [] today s = (.error "No items provided", s) := by
  refine ⟨?_, rfl, rfl⟩
  show Except.ok _ = _
  have h0 : sumSubtotal [] + sumTax [] = (0 : ℚ) := by
    simp [sumSubtotal, sumTax]
  simp only [calculate, processItems, sumSubtotal, sumTax, List.foldl_nil,
    List.map_nil, h0]
  norm_num [fmt2_zero]

/-! ## C5: the preview endpoint is pure -/

/-- **C5.**  The /calculate preview is side-effect-free and
deterministic: it returns the store unchanged (it never calls the
allocator), and its response does not depend on the store at all, so
repeated invocations on identical input give identical totals. -/
theorem C5_preview_side_effect_free (items : List Item) (s₁ s₂ : Store) :
    (calculate items s₁).2 = s₁
      ∧ (calculate items s₁).1 = (calculate items s₂).1 :=
  ⟨rfl, rfl⟩

/-! ## C6: corrupt counter store -/

/-- **C6 (counterexample).**  A store that exists and parses as JSON but
holds no last_invoice record is not rejected: the allocator silently
returns the seed value 74 (and persists it) instead of surfacing an
error — the sequence is silently reset to the seed. -/
theorem C6_counterexample :
    get_next_invoice_number (.val none) = .ok (74, .val (some 74)) := rfl

/-- **C6 (amended).**  If the persisted store exists but is unreadable
or not parseable JSON, the allocator raises and returns no number; but a
readable, parseable store that merely lacks the last_invoice record is
treated as if the last persisted value were 73 and silently restarts the
sequence at the seed 74. -/
theorem C6_corrupt_raises_but_missing_key_resets :
    (∀ v s', get_next_invoice_number .corrupt ≠ .ok (v, s'))
      ∧ get_next_invoice_number (.val none) = .ok (74, .val (some 74)) := by
  refine ⟨?_, rfl⟩
  intro v s' h
  simp [get_next_invoice_number] at h

/-! ## C10: negative values are accepted -/

/-- **C10.**  Neither endpoint enforces non-negativity: whenever every
item has float-convertible qty, price and tax fields — negative numbers
included — the preview succeeds, and (for a nonempty list and a working
store) the finalize path succeeds as well, applying the same arithmetic
formulas to the parsed values whatever their sign. -/
theorem C10_negatives_accepted (items : List Item) (s : Store)
    (today : Date) (n : Int) (s' : Store)
    (hall : ∀ it ∈ items, floatFieldsOk it = true)
    (hne : items ≠ [])
    (halloc : get_next_invoice_number s = .ok (n, s')) :
    (∃ r, (calculate items s).1 = .ok r)
      ∧ (∃ dl, (download items today s).1 = .ok dl)
      ∧ (∃ ls, processItems items = .ok ls
          ∧ ∀ l ∈ ls, l.line_subtotal = l.qty * l.price
              ∧ l.line_tax = l.line_subtotal * (l.taxPercent / 100)
              ∧ l.line_total = l.line_subtotal + l.line_tax) := by
  obtain ⟨ls, hls⟩ := processItems_ok_of_all items hall
  have hie : items.isEmpty = false := by
    cases items with
    | nil => exact absurd rfl hne
    | cons a t => rfl
  refine ⟨⟨{ success := true, items := ls.map calcItemOf,
             subtotal := fmt2 (sumSubtotal ls), tax := fmt2 (sumTax ls),
             total := fmt2 (sumSubtotal ls + sumTax ls),
             subtotalQ := sumSubtotal ls, taxQ := sumTax ls,
             totalQ := sumSubtotal ls + sumTax ls }, by simp [calculate, hls]⟩,
    ⟨{ filename := invoiceNoStr today.year n ++ ".pdf",
       invoice := { invoice_no := invoiceNoStr today.year n,
                    invoice_date := isoDate today,
                    due_date_str := isoDate (addDays today 15), lines := ls,
                    subtotal := sumSubtotal ls, total_tax := sumTax ls,
                    grand_total := sumSubtotal ls + sumTax ls } },
     by simp [download, generate_invoice, hie, halloc, hls]⟩,
    ls, hls, ?_⟩
  intro l hl
  obtain ⟨it, _, hline⟩ := processItems_mem_provenance items ls hls l hl
  exact lineOf_formulas it l hline

/-- Witness for C10: a single item with negative quantity -2, price 10
and tax 25, finalized from a fresh store. -/
theorem C10_witness :
    (∃ r, (calculate [negItem] .absent).1 = .ok r)
      ∧ (∃ dl, (download [negItem] ⟨2025, 10, 12⟩ .absent).1 = .ok dl)
      ∧ (∃ ls, processItems [negItem] = .ok ls
          ∧ ∀ l ∈ ls, l.line_subtotal = l.qty * l.price
              ∧ l.line_tax = l.line_subtotal * (l.taxPercent / 100)
              ∧ l.line_total = l.line_subtotal + l.line_tax) :=
  C10_negatives_accepted [negItem] .absent ⟨2025, 10, 12⟩ 74
    (.val (some 74)) (by decide) (by decide) rfl

/-! ## Calendar lemmas -/

theorem daysInMonth_pos (y m : Nat) : 1 ≤ daysInMonth y m := by
  unfold daysInMonth
  split
  · split <;> omega
  · split <;> omega

theorem daysInMonth_le31 (y m : Nat) : daysInMonth y m ≤ 31 := by
  unfold daysInMonth
  split
  · split <;> omega
  · split <;> omega

theorem nextDay_valid (d : Date) (h : d.Valid) : (nextDay d).Valid := by
  obtain ⟨h1, h2, h3, h4⟩ := h
  unfold nextDay
  by_cases hc : d.day < daysInMonth d.year d.month
  · rw [if_pos hc]
    unfold Date.Valid
    dsimp only
    exact ⟨h1, h2, by omega, by omega⟩
  · rw [if_neg hc]
    by_cases hm : d.month < 12
    · rw [if_pos hm]
      unfold Date.Valid
      dsimp only
      exact ⟨by omega, by omega, le_refl 1, daysInMonth_pos _ _⟩
    · rw [if_neg hm]
      unfold Date.Valid
      dsimp only
      exact ⟨by omega, by omega, le_refl 1, daysInMonth_pos _ _⟩

theorem addDays_valid (n : Nat) : ∀ d : Date, d.Valid → (addDays d n).Valid := by
  induction n with
  | zero => intro d h; exact h
  | succ m ih => intro d h; exact ih (nextDay d) (nextDay_valid d h)

theorem nextDay_year_le (d : Date) : (nextDay d).year ≤ d.year + 1 := by
  unfold nextDay
  split
  · show d.year ≤ d.year + 1; omega
  · split
    · show d.year ≤ d.year + 1; omega
    · show d.year + 1 ≤ d.year + 1; omega

theorem nextDay_year_ge (d : Date) : d.year ≤ (nextDay d).year := by
  unfold nextDay
  split
  · show d.year ≤ d.year; omega
  · split
    · show d.year ≤ d.year; omega
    · show d.year ≤ d.year + 1; omega

theorem addDays_year_le (n : Nat) : ∀ d : Date, (addDays d n).year ≤ d.year + n := by
  induction n with
  | zero => intro d; exact Nat.le_refl _
  | succ m ih =>
    intro d
    have h1 : (addDays (nextDay d) m).year ≤ (nextDay d).year + m := ih _
    have h2 := nextDay_year_le d
    show (addDays (nextDay d) m).year ≤ d.year + (m + 1)
    omega

theorem addDays_year_ge (n : Nat) : ∀ d : Date, d.year ≤ (addDays d n).year := by
  induction n with
  | zero => intro d; exact Nat.le_refl _
  | succ m ih =>
    intro d
    have h1 : (nextDay d).year ≤ (addDays (nextDay d) m).year := ih _
    have h2 := nextDay_year_ge d
    show d.year ≤ (addDays (nextDay d) m).year
    omega

/-! ## ISO shape of formatted dates -/

theorem natDigits_len1 (n : Nat) (h : n < 10) : (natDigits n).length = 1 := by
  rw [natDigits_lt10 n h]
  rfl

theorem natDigits_len2 (n : Nat) (h1 : 10 ≤ n) (h2 : n < 100) :
    (natDigits n).length = 2 := by
  rw [natDigits_ge10 n h1, List.length_append, natDigits_len1 (n / 10) (by omega)]
  rfl

theorem natDigits_len3 (n : Nat) (h1 : 100 ≤ n) (h2 : n < 1000) :
    (natDigits n).length = 3 := by
  rw [natDigits_ge10 n (by omega), List.length_append,
    natDigits_len2 (n / 10) (by omega) (by omega)]
  rfl

theorem natDigits_len4 (n : Nat) (h1 : 1000 ≤ n) (h2 : n < 10000) :
    (natDigits n).length = 4 := by
  rw [natDigits_ge10 n (by omega), List.length_append,
    natDigits_len3 (n / 10) (by omega) (by omega)]
  rfl

theorem pad2_length (n : Nat) (h : n < 100) : (pad2 n).length = 2 := by
  by_cases h1 : n < 10
  · simp [pad2, padZero, natDigits_len1 n h1]
  · simp [pad2, padZero, natDigits_len2 n (by omega) h]

theorem pad2_all_isDigit (n : Nat) : ∀ c ∈ pad2 n, c.isDigit = true := by
  intro c hc
  rcases padZero_mem 2 (natDigits n) c hc with h0 | hd
  · subst h0; decide
  · exact natDigits_all_isDigit n c hd

theorem length_eq_two {α : Type} (l : List α) (h : l.length = 2) :
    ∃ a b, l = [a, b] := by
  cases l with
  | nil => simp at h
  | cons a t =>
    cases t with
    | nil => simp at h
    | cons b u =>
      cases u with
      | nil => exact ⟨a, b, rfl⟩
      | cons c v => simp at h

theorem length_eq_four {α : Type} (l : List α) (h : l.length = 4) :
    ∃ a b c e, l = [a, b, c, e] := by
  cases l with
  | nil => simp at h
  | cons a t =>
    cases t with
    | nil => simp at h
    | cons b u =>
      cases u with
      | nil => simp at h
      | cons c v =>
        cases v with
        | nil => simp at h
        | cons e w =>
          cases w with
          | nil => exact ⟨a, b, c, e, rfl⟩
          | cons f x => simp at h

theorem isoDate_isISO (d : Date) (hm : d.month < 100) (hd : d.day < 100)
    (h1 : 1000 ≤ d.year) (h2 : d.year < 10000) :
    isISODateString (isoDate d) = true := by
  obtain ⟨a, b, c, e, hy⟩ := length_eq_four (natDigits d.year)
    (natDigits_len4 d.year h1 h2)
  obtain ⟨m1, m2, hmm⟩ := length_eq_two (pad2 d.month) (pad2_length d.month hm)
  obtain ⟨e1, e2, hdd⟩ := length_eq_two (pad2 d.day) (pad2_length d.day hd)
  have hdata : (isoDate d).data
      = a :: b :: c :: e :: '-' :: m1 :: m2 :: '-' :: e1 :: e2 :: [] := by
    show natDigits d.year ++ '-' :: (pad2 d.month ++ '-' :: pad2 d.day) = _
    rw [hy, hmm, hdd]
    rfl
  have hya : ∀ x ∈ [a, b, c, e], x.isDigit = true := by
    intro x hx
    apply natDigits_all_isDigit d.year
    rw [hy]
    exact hx
  have hma : ∀ x ∈ [m1, m2], x.isDigit = true := by
    intro x hx
    apply pad2_all_isDigit d.month
    rw [hmm]
    exact hx
  have hda : ∀ x ∈ [e1, e2], x.isDigit = true := by
    intro x hx
    apply pad2_all_isDigit d.day
    rw [hdd]
    exact hx
  unfold isISODateString
  rw [hdata]
  simp [hya a (by simp), hya b (by simp), hya c (by simp), hya e (by simp),
    hma m1 (by simp), hma m2 (by simp), hda e1 (by simp), hda e2 (by simp)]

/-! ## C9: dates of the generated invoice -/

/-- **C9.**  For every successfully generated invoice, the due date is
the generation date advanced by exactly 15 calendar days, and both the
invoice date and the due date strings have the ISO YYYY-MM-DD shape
(for any valid generation date of a four-digit year with room for the
15-day offset). -/
theorem C9_due_date_plus15_iso (items : List Item) (today : Date)
    (s : Store) (inv : Invoice) (hv : today.Valid)
    (hy1 : 1000 ≤ today.year) (hy2 : today.year + 15 ≤ 9999)
    (h : (generate_invoice items today s).1 = .ok inv) :
    inv.invoice_date = isoDate today
      ∧ inv.due_date_str = isoDate (addDays today 15)
      ∧ isISODateString inv.invoice_date = true
      ∧ isISODateString inv.due_date_str = true := by
  have hfields : inv.invoice_date = isoDate today
      ∧ inv.due_date_str = isoDate (addDays today 15) := by
    unfold generate_invoice at h
    cases hs : get_next_invoice_number s with
    | error e => rw [hs] at h; simp at h
    | ok p =>
      rw [hs] at h
      cases hp : processItems items with
      | error e => rw [hp] at h; simp at h
      | ok ls =>
        rw [hp] at h
        injection h with h
        subst h
        exact ⟨rfl, rfl⟩
  obtain ⟨hd1, hd2⟩ := hfields
  have hvd : (addDays today 15).Valid := addDays_valid 15 today hv
  have hm1 : today.month < 100 := by
    obtain ⟨_, h2, _, _⟩ := hv
    omega
  have hdy1 : today.day < 100 := by
    obtain ⟨_, _, _, h4⟩ := hv
    have := daysInMonth_le31 today.year today.month
    omega
  have hm2 : (addDays today 15).month < 100 := by
    obtain ⟨_, h2, _, _⟩ := hvd
    omega
  have hdy2 : (addDays today 15).day < 100 := by
    obtain ⟨_, _, _, h4⟩ := hvd
    have := daysInMonth_le31 (addDays today 15).year (addDays today 15).month
    omega
  have hyle : (addDays today 15).year < 10000 := by
    have := addDays_year_le 15 today
    omega
  have hyge : 1000 ≤ (addDays today 15).year := by
    have := addDays_year_ge 15 today
    omega
  refine ⟨hd1, hd2, ?_, ?_⟩
  · rw [hd1]
    exact isoDate_isISO today hm1 hdy1 hy1 (by omega)
  · rw [hd2]
    exact isoDate_isISO _ hm2 hdy2 hyge hyle

/-- Witness for C9: generating the worked example on 2025-10-12 from a
fresh store yields a due date string of ISO shape — the rendering of the
date fifteen days later (which evaluates to 2025-10-27). -/
theorem C9_witness :
    isISODateString (isoDate (addDays ⟨2025, 10, 12⟩ 15)) = true :=
  (C9_due_date_plus15_iso [widgetItem] ⟨2025, 10, 12⟩ .absent _
    (by unfold Date.Valid; decide) (by norm_num) (by norm_num) rfl).2.2.2

end InvoiceApp
